import Mathlib

/-!
Verification development for the DexBee indexedDB query layer
(source file: src/dexbee.js).

The development shallowly embeds the JavaScript source: JS values become
an inductive type, the indexedDB store becomes an explicit table value
(sorted record list plus index declarations), and the query-resolution
engine (the functions keyFill, locateIndex and the dispatch body of
the private method underscore-exec, lines 299-516 of src/dexbee.js) becomes a
family of pure Lean functions returning Except for rejected calls.
Event-driven cursor iteration is modelled by list traversal in index
order, which is the semantics the host storage engine guarantees.
-/

/- JavaScript values, restricted to the shapes the engine manipulates:
null, undefined, booleans, (integer) numbers, strings, arrays and plain
objects.  Arrays and objects are separate mutual inductives so that
structural recursion (and hence kernel evaluation) works. -/
mutual
inductive JS where
  | null
  | undefined
  | bool (b : Bool)
  | num (n : Int)
  | str (s : String)
  | arr (elems : JSList)
  | obj (fields : JSFields)
deriving DecidableEq

inductive JSList where
  | nil
  | cons (head : JS) (tail : JSList)
deriving DecidableEq

inductive JSFields where
  | fnil
  | fcons (name : String) (val : JS) (tail : JSFields)
deriving DecidableEq
end

/-- Convert a Lean list of values to a JS array payload. -/
def JSList.ofList : List JS → JSList
  | [] => .nil
  | x :: xs => .cons x (JSList.ofList xs)

/-- Convert a JS array payload back to a Lean list. -/
def JSList.toList : JSList → List JS
  | .nil => []
  | .cons x xs => x :: xs.toList

/-- Convert a Lean association list to JS object fields. -/
def JSFields.ofList : List (String × JS) → JSFields
  | [] => .fnil
  | (n, v) :: xs => .fcons n v (JSFields.ofList xs)

/-- Object.keys: field names in declaration order. -/
def JSFields.keys : JSFields → List String
  | .fnil => []
  | .fcons n _ xs => n :: xs.keys

/-- JS property read on an object field list: undefined when absent. -/
def JSFields.lookup : JSFields → String → JS
  | .fnil, _ => .undefined
  | .fcons n v xs, m => if n = m then v else xs.lookup m

/-- JS truthiness.  Objects and arrays (even empty ones) are truthy;
null, undefined, false, 0 and the empty string are falsy. -/
def JS.truthy : JS → Bool
  | .null => false
  | .undefined => false
  | .bool b => b
  | .num n => !(n == 0)
  | .str s => !(s == "")
  | .arr _ => true
  | .obj _ => true

/-- Array.isArray. -/
def JS.isArray : JS → Bool
  | .arr _ => true
  | _ => false

/-- The JS test (typeof v === a number). -/
def JS.isNumber : JS → Bool
  | .num _ => true
  | _ => false

/-- Property read v.name, yielding undefined on non-objects. -/
def JS.field (v : JS) (name : String) : JS :=
  match v with
  | .obj fs => fs.lookup name
  | _ => .undefined

/-- Computed property read v[key] as the engine uses it: the key is the
string held in the projection option.  Non-string keys never reach this
read in the engine (the only option is a field name). -/
def JS.fieldJ (v : JS) (key : JS) : JS :=
  match key with
  | .str s => v.field s
  | _ => .undefined

/-- Shorthand for building a JS array from a Lean list. -/
def jarr (l : List JS) : JS := .arr (JSList.ofList l)

/-- Shorthand for building a JS object from a Lean association list. -/
def jobj (l : List (String × JS)) : JS := .obj (JSFields.ofList l)

/-! ## IndexedDB key ordering

The host storage engine compares keys with: number < string < array,
numbers by value, strings lexicographically by code unit, arrays
lexicographically by recursive key comparison (a strict prefix sorts
first).  The comparison recurses on a fuel argument so that it is
structural and evaluates inside the kernel; the wrapper supplies fuel
that dominates the sizes of both keys. -/

/-- Sort rank of a key type: number < string < array (other values are
not valid keys and never reach a comparison in the engine). -/
def keyRank : JS → Nat
  | .num _ => 0
  | .str _ => 1
  | .arr _ => 2
  | _ => 3

/-- Code-unit comparison of characters. -/
def charLtB (a b : Char) : Bool := decide (a.toNat < b.toNat)

/-- Lexicographic comparison of character lists. -/
def charsLtB : List Char → List Char → Bool
  | [], [] => false
  | [], _ :: _ => true
  | _ :: _, [] => false
  | a :: as, b :: bs => charLtB a b || (a == b && charsLtB as bs)

/-- Lexicographic string comparison by code unit. -/
def strLtB (a b : String) : Bool := charsLtB a.data b.data

/-- Fueled strict key comparison. -/
def keyLtF : Nat → JS → JS → Bool
  | 0, _, _ => false
  | f + 1, a, b =>
    match a, b with
    | .num x, .num y => decide (x < y)
    | .str x, .str y => strLtB x y
    | .arr x, .arr y =>
      match x, y with
      | .nil, .nil => false
      | .nil, .cons _ _ => true
      | .cons _ _, .nil => false
      | .cons u us, .cons v vs =>
        keyLtF f u v || (decide (u = v) && keyLtF f (.arr us) (.arr vs))
    | x, y => decide (keyRank x < keyRank y)

/- Combined size of a JS value, a bound on the recursion depth of key
comparison. -/
mutual
def szJS : JS → Nat
  | .arr a => 1 + szL a
  | .obj a => 1 + szF a
  | _ => 1

def szL : JSList → Nat
  | .nil => 1
  | .cons x xs => 1 + szJS x + szL xs

def szF : JSFields → Nat
  | .fnil => 1
  | .fcons _ v fs => 1 + szJS v + szF fs
end

/-- Strict key order of the storage engine. -/
def keyLt (a b : JS) : Bool := keyLtF (szJS a + szJS b) a b

/-- Reflexive key order of the storage engine. -/
def keyLe (a b : JS) : Bool := keyLt a b || decide (a = b)

/- Validity of a value as an indexedDB key: numbers, strings, and
arrays of valid keys. -/
mutual
def isValidKey : JS → Bool
  | .num _ => true
  | .str _ => true
  | .arr a => validKeyList a
  | _ => false

def validKeyList : JSList → Bool
  | .nil => true
  | .cons x xs => isValidKey x && validKeyList xs
end

/-! ## Key paths and record key extraction -/

/-- A key path of a store or index: a single (possibly dotted) field
path, or a compound list of field paths.  Array.isArray on the source
keyPath distinguishes the two. -/
inductive KeyPath where
  | single (p : String)
  | compound (ps : List String)
deriving DecidableEq

/-- Array.isArray(database.keyPath). -/
def KeyPath.isCompound : KeyPath → Bool
  | .single _ => false
  | .compound _ => true

/-- The arity used by keyFill: length of a compound key path, 1
otherwise. -/
def KeyPath.len : KeyPath → Nat
  | .single _ => 1
  | .compound ps => ps.length

/-- Split a dotted field path into components (the indexedDB key path
evaluation rule). -/
def splitDotsAux : List Char → List Char → List String
  | [], acc => [String.mk acc.reverse]
  | c :: rest, acc =>
    if c = '.' then String.mk acc.reverse :: splitDotsAux rest []
    else splitDotsAux rest (c :: acc)

/-- Walk a field-path component list through nested objects. -/
def getPath : JS → List String → JS
  | v, [] => v
  | v, p :: ps => getPath (v.field p) ps

/-- Evaluate a single dotted key path against a record. -/
def evalPathStr (r : JS) (path : String) : JS :=
  getPath r (splitDotsAux path.data [])

/-- Evaluate a key path against a record; compound paths produce an
array key. -/
def KeyPath.eval : KeyPath → JS → JS
  | .single p, r => evalPathStr r p
  | .compound ps, r => jarr (ps.map (fun p => evalPathStr r p))

/-! ## Tables: provisioning and writes -/

/-- A provisioned object store together with its registered secondary
indexes and stored records.  The record list is maintained in ascending
primary-key order, which is the enumeration order the storage engine
guarantees. -/
structure Table where
  name : String
  keyPath : KeyPath
  indexes : List (String × KeyPath)
  records : List JS
deriving DecidableEq

/-- One entry of a declared index list (source schema): a field path or
a nested list of field paths. -/
inductive IndexItem where
  | istr (s : String)
  | iarr (ss : List String)
deriving DecidableEq

/-- A declared index setting: a single field path or a list of items. -/
inductive IndexSpec where
  | sing (s : String)
  | multi (items : List IndexItem)
deriving DecidableEq

/-- The name under which an item is registered: the item itself, or the
head of a nested list (source line 225: Array.isArray(i) ? i[0] : i). -/
def IndexItem.headName : IndexItem → String
  | .istr s => s
  | .iarr ss => ss.headI

/-- The key path an item registers (source line 225: the item itself is
passed as the createIndex key path). -/
def IndexItem.toKeyPath : IndexItem → KeyPath
  | .istr s => .single s
  | .iarr ss => .compound ss

/-- The provisioning step of the upgrade callback for one table (source
lines 211-229): create the store with the declared unique key, then,
for a list-valued index setting, register the synthetic composite index
under the table name suffixed with _index plus one index per item; for
a single-valued setting register just that index. -/
def provisionTable (tname : String) (uniqueKey : KeyPath) (index : Option IndexSpec) : Table :=
  { name := tname
    keyPath := uniqueKey
    indexes :=
      match index with
      | none => []
      | some (.sing s) => [(s, .single s)]
      | some (.multi items) =>
          (tname ++ "_index", .compound (items.map IndexItem.headName)) ::
            items.map (fun i => (i.headName, i.toKeyPath))
    records := [] }

/-- Upsert one record into an ascending record list, keyed by the store
key path (overwrite on equal key, as the put primitive does). -/
def putRecord (kp : KeyPath) (r : JS) : List JS → List JS
  | [] => [r]
  | x :: xs =>
    if kp.eval r = kp.eval x then r :: xs
    else if keyLt (kp.eval r) (kp.eval x) then r :: x :: xs
    else x :: putRecord kp r xs

/-- The put operation (source lines 282-297): upsert each record of the
batch in order. -/
def Table.putAll (t : Table) (data : List JS) : Table :=
  { t with records := data.foldl (fun rs d => putRecord t.keyPath d rs) t.records }

/-! ## Scan primitives of the store gateway -/

/-- The query argument handed to the storage primitives: nothing (a
null or undefined query enumerates everything), an exact key, or an
IDBKeyRange (lower bound, upper bound, or both, each inclusive or
exclusive). -/
inductive IDBQ where
  | noQ
  | key (k : JS)
  | lower (k : JS) (opn : Bool)
  | upper (k : JS) (opn : Bool)
  | bound (lo hi : JS) (loOpen hiOpen : Bool)
deriving DecidableEq

/-- Whether a key satisfies a query. -/
def matchQ : IDBQ → JS → Bool
  | .noQ, _ => true
  | .key k, x => decide (x = k)
  | .lower k o, x => if o then keyLt k x else keyLe k x
  | .upper k o, x => if o then keyLt x k else keyLe x k
  | .bound lo hi lo_o hi_o, x =>
      (if lo_o then keyLt lo x else keyLe lo x) &&
      (if hi_o then keyLt x hi else keyLe x hi)

/-- Reinterpret a plain JS value left in the query variable as a store
query: null and undefined enumerate everything, any other value is an
exact key. -/
def qOfJS (v : JS) : IDBQ :=
  match v with
  | .null => .noQ
  | .undefined => .noQ
  | v => .key v

/-- A physical scan target: the primary store or a named secondary
index with its key path. -/
inductive DBHandle where
  | store
  | idx (name : String) (kp : KeyPath)
deriving DecidableEq

/-- The key path of a scan target. -/
def handleKeyPath (t : Table) : DBHandle → KeyPath
  | .store => t.keyPath
  | .idx _ kp => kp

/-- Stable insertion into a list sorted by the given reflexive order. -/
def insertLe (le : JS → JS → Bool) (x : JS) : List JS → List JS
  | [] => [x]
  | y :: ys => if le x y then x :: y :: ys else y :: insertLe le x ys

/-- Stable sort by the given reflexive order (records with equal index
keys keep their relative, primary-key, order). -/
def sortLe (le : JS → JS → Bool) (l : List JS) : List JS :=
  l.foldr (insertLe le) []

/-- The records a scan target enumerates, in ascending key order: the
store enumerates its records; an index enumerates records with a valid
index key, ordered by index key then primary key. -/
def handleEntries (t : Table) : DBHandle → List JS
  | .store => t.records
  | .idx _ kp =>
      sortLe (fun a b => keyLe (kp.eval a) (kp.eval b))
        (t.records.filter (fun r => isValidKey (kp.eval r)))

/-- The getAll primitive: every record of the target whose key matches
the query, in ascending key order. -/
def getAllH (t : Table) (h : DBHandle) (q : IDBQ) : List JS :=
  (handleEntries t h).filter (fun r => matchQ q ((handleKeyPath t h).eval r))

/-- Deduplication by key keeping the first record of each duplicate
group (the unique cursor variants of the storage engine). -/
def dedupSeen (key : JS → JS) (seen : List JS) : List JS → List JS
  | [] => []
  | x :: xs =>
    if seen.any (fun k => decide (k = key x)) then dedupSeen key seen xs
    else x :: dedupSeen key (key x :: seen) xs

/-- The cursor primitive: matching records in cursor order.  The unique
variants keep one record per distinct key (the one lowest in primary
order); the prev variants walk the result backwards. -/
def cursorH (t : Table) (h : DBHandle) (q : IDBQ) (unique desc : Bool) : List JS :=
  let base := getAllH t h q
  let base := if unique then dedupSeen (fun r => (handleKeyPath t h).eval r) [] base else base
  if desc then base.reverse else base

/-! ## The key filler (source lines 344-369)

keyFill normalizes one query term against the key path of the resolved
scan target.  An ordered-list term with a falsy component is rejected;
an object-valued range term is unwrapped to its first field value; and
a term whose arity falls short of a compound key path is padded with a
maximal sentinel per missing trailing component, yielding both the
original term and the padded upper bound. -/

/-- The maximal sentinel value appended for each missing trailing key
component (a one-character string that sorts after every string the
collation compares it with). -/
def sentinel : JS := .str "￿"

/-- Result of keyFill: the term unchanged, or the term together with
the sentinel-padded upper bound. -/
inductive KFRes where
  | plain (k : JS)
  | padded (w : JS) (upperBound : List JS)
deriving DecidableEq

/-- keyFill, translated clause by clause from source lines 344-369.
The error payload is the error tag alone (the source also embeds the
original term as JSON in the message). -/
def keyFill (dbKP : KeyPath) (descFlag : Bool) (k : JS) (isRange : Bool) : Except String KFRes :=
  let step1 : Except String JS :=
    match k with
    | .arr elems =>
        if elems.toList.any (fun b => !b.truthy) then
          .error (if isRange then "INVALID_RANGE_VALUE" else "INVALID_WHERE_VALUE")
        else .ok k
    | .obj fs =>
        if isRange then
          .ok (match fs.keys with
               | [] => .undefined
               | n :: _ => fs.lookup n)
        else .ok k
    | .null =>
        -- reading a property list off null raises a TypeError in the
        -- range-unwrap branch (typeof null is object)
        if isRange then .error "TypeError" else .ok k
    | _ => .ok k
  match step1 with
  | .error e => .error e
  | .ok k =>
    let arity : Nat := match k with | .arr es => es.toList.length | _ => 1
    let rangeIter : Nat := dbKP.len - arity
    if rangeIter > 0 then
      let base : List JS :=
        match k with
        | .arr es => es.toList
        | k => if k.truthy then [k] else if descFlag then [sentinel] else [.null]
      .ok (.padded k (base ++ List.replicate rangeIter sentinel))
    else .ok (.plain k)

/-! ## The index locator (source lines 325-387) -/

/-- A resolved scan directive: the physical target and the query to
hand to the storage primitive. -/
structure Located where
  database : DBHandle
  query : IDBQ
deriving DecidableEq

/-- The composite-index handle the dispatcher prepares up front (source
lines 308-311): the index named after the table suffixed with _index
when it exists, the store itself otherwise. -/
def compositeHandle (t : Table) : DBHandle :=
  match t.indexes.find? (fun p => decide (p.1 = t.name ++ "_index")) with
  | some (nm, kp) => .idx nm kp
  | none => .store

/-- locateIndex, translated from source lines 325-387.  descFlag is the
computed descending direction, descRaw the raw descending option (the
source consults both).  whereArg is the single term (null when the
query supplies none), rangeArg the raw range option (undefined when
called with one argument). -/
def locateIndex (t : Table) (descFlag : Bool) (descRaw : JS) (whereArg : JS) (rangeArg : JS) :
    Except String Located :=
  let step1 : Except String (DBHandle × JS) :=
    match whereArg with
    | .arr _ => .ok (compositeHandle t, whereArg)
    | .obj fs =>
        match fs.keys with
        | [n] =>
            match t.indexes.find? (fun p => decide (p.1 = n)) with
            | some (nm, kp) => .ok (.idx nm kp, fs.lookup n)
            | none => .error "NO_INDEX"
        | _ => .error "NO_INDEX"
    | _ => .ok (.store, whereArg)
  match step1 with
  | .error e => .error e
  | .ok (database, whereV) =>
    let dbKP := handleKeyPath t database
    match keyFill dbKP descFlag whereV false with
    | .error e => .error e
    | .ok keyRange =>
      if rangeArg.truthy then
        if rangeArg.isNumber then
          let bound : JS :=
            if descFlag then
              match keyRange with
              | .padded _ ub => jarr ub
              | .plain _ => whereV
            else whereV
          if bound.truthy || descFlag then
            let b : JS := if bound.truthy then bound else if descFlag then sentinel else .null
            .ok ⟨database, if descFlag then .upper b true else .lower b true⟩
          else
            .ok ⟨database, qOfJS (if descRaw.truthy then sentinel else .null)⟩
        else
          match keyFill dbKP descFlag rangeArg true with
          | .error e => .error e
          | .ok rangeKey =>
            let hi : JS :=
              match rangeKey with
              | .padded _ ub => jarr ub
              | .plain k => k
            .ok ⟨database, .bound whereV hi false false⟩
      else
        match keyRange with
        | .padded w ub =>
            if w.truthy then .ok ⟨database, .bound whereV (jarr ub) false false⟩
            else .ok ⟨database, qOfJS whereV⟩
        | .plain k =>
            if k = .null then
              -- typeof null is object, so the source would read the
              -- where property off null: a TypeError
              .error "TypeError"
            else .ok ⟨database, qOfJS whereV⟩

/-! ## The dispatcher (source lines 299-516) -/

/-- The destructured query object (source line 302): each option is the
raw JS value, where defaulting to null, the rest to undefined when
absent. -/
structure QueryObj where
  whereV : JS
  range : JS
  unique : JS
  only : JS
  descending : JS
deriving DecidableEq

/-- The query object of a call with no query argument. -/
def emptyQ : QueryObj := ⟨.null, .undefined, .undefined, .undefined, .undefined⟩

/-- The computed scan direction (source line 304): the descending
option when boolean, else the sign of a numeric range, else
ascending. -/
def descOf (q : QueryObj) : Bool :=
  match q.descending with
  | .bool b => b
  | _ =>
    match q.range with
    | .num n => decide (n < 0)
    | _ => false

/-- Coercion of the where option to a term list (source line 317): an
array is its own term list, any other truthy value is a one-term list,
a falsy value leaves no list (and hence no KEYS mode). -/
def whereList (w : JS) : Option (List JS) :=
  match w with
  | .arr es => some es.toList
  | w => if w.truthy then some [w] else none

/-- Which public operation drives the dispatch. -/
inductive ExecKind where
  | get
  | del
deriving DecidableEq

/-- Outcome of a dispatched call: the promise resolves with a value, or
never settles (the KEYS-mode delete success path installs no resolve
callback, source lines 438-443). -/
inductive Outcome where
  | resolved (v : JS)
  | hangs
deriving DecidableEq

/-- The projection-with-fallback shaping of a bulk fetch (source lines
428-435 and 492-497): when the only option is truthy the projected
list is built by reading the named field off every record, and the raw
list is returned exactly when that projected list is empty. -/
def onlyShape (only : JS) (data : List JS) : List JS :=
  let onlyData := if only.truthy then data.map (fun d => d.fieldJ only) else []
  if onlyData.length != 0 then onlyData else data

/-- The per-record projection of cursor-driven fetches (source lines
404-406 and 465-468). -/
def projOnly (only : JS) (v : JS) : JS :=
  if only.truthy then v.fieldJ only else v

/-- One KEYS-mode lookup term driving a fetch (source lines 395-437). -/
def keysGetTerm (t : Table) (descFlag : Bool) (descRaw unique only : JS) (term : JS) :
    Except String JS :=
  match locateIndex t descFlag descRaw term .undefined with
  | .error e => .error e
  | .ok loc =>
    if unique.truthy then
      let data := cursorH t loc.database loc.query true false
      let shaped := data.map (projOnly only)
      .ok (jarr (if descRaw.truthy then shaped.reverse else shaped))
    else
      let data := getAllH t loc.database loc.query
      let data := if descRaw.truthy then data.reverse else data
      .ok (jarr (onlyShape only data))

/-- KEYS-mode fetch fan-out: one independent lookup per term, results
collected in input term order (source lines 390-446). -/
def keysGet (t : Table) (descFlag : Bool) (descRaw unique only : JS) :
    List JS → Except String (List JS)
  | [] => .ok []
  | k :: ks =>
    match keysGetTerm t descFlag descRaw unique only k with
    | .error e => .error e
    | .ok r =>
      match keysGet t descFlag descRaw unique only ks with
      | .error e => .error e
      | .ok rs => .ok (r :: rs)

/-- One KEYS-mode delete term (source lines 438-443): the delete
primitive exists only on the store handle (an index handle has none, a
TypeError), and a null query is rejected by the primitive itself. -/
def keysDelTerm (t : Table) (descFlag : Bool) (descRaw : JS) (term : JS) :
    Except String Table :=
  match locateIndex t descFlag descRaw term .undefined with
  | .error e => .error e
  | .ok loc =>
    match loc.database with
    | .idx _ _ => .error "TypeError"
    | .store =>
      match loc.query with
      | .noQ => .error "DataError"
      | qq => .ok { t with records := t.records.filter (fun r => !(matchQ qq (t.keyPath.eval r))) }

/-- KEYS-mode delete fan-out over the terms in order. -/
def keysDel (descFlag : Bool) (descRaw : JS) : Table → List JS → Except String Table
  | t, [] => .ok t
  | t, k :: ks =>
    match keysDelTerm t descFlag descRaw k with
    | .error e => .error e
    | .ok t2 => keysDel descFlag descRaw t2 ks

/-- The single term RANGE mode scans (source lines 451-452): the last
element of the coerced where list when descending, the first when
ascending, the untouched null when no where was supplied. -/
def rangeScanTerm (descFlag : Bool) (ws : Option (List JS)) : JS :=
  match ws with
  | none => .null
  | some l => if descFlag then l.getLast?.getD .undefined else l.head?.getD .undefined

/-- Remove the records a delete cursor visited. -/
def removeRecs (t : Table) (visited : List JS) : Table :=
  { t with records := t.records.filter (fun r => !(visited.any (fun v => decide (v = r)))) }

/-- RANGE-mode dispatch (source lines 448-501): numeric ranges (and the
unique flag) drive a count-limited cursor in the computed direction;
any other range drives a bulk fetch or a bulk delete over the bounded
range.  A bulk delete resolves with the undefined request result, or
never settles when a truthy only option makes the success callback
iterate over undefined (a thrown TypeError in the event handler). -/
def rangeExec (t : Table) (range unique only descRaw : JS) (descFlag : Bool)
    (ws : Option (List JS)) (ek : ExecKind) : Except String (Outcome × Table) :=
  let term := rangeScanTerm descFlag ws
  match locateIndex t descFlag descRaw term range with
  | .error e => .error e
  | .ok loc =>
    if range.isNumber || unique.truthy then
      let entries := cursorH t loc.database loc.query unique.truthy descFlag
      let visited :=
        match range with
        | .num n => entries.take n.natAbs
        | _ => entries
      match ek with
      | .get => .ok (.resolved (jarr (visited.map (projOnly only))), t)
      | .del => .ok (.resolved (.bool true), removeRecs t visited)
    else
      match ek with
      | .get =>
        let data := getAllH t loc.database loc.query
        let data := if descFlag then data.reverse else data
        .ok (.resolved (jarr (onlyShape only data)), t)
      | .del =>
        match loc.database with
        | .idx _ _ => .error "TypeError"
        | .store =>
          let t2 := { t with records := t.records.filter (fun r => !(matchQ loc.query (t.keyPath.eval r))) }
          if only.truthy then .ok (.hangs, t2) else .ok (.resolved .undefined, t2)

/-- The default dispatch branch (source lines 502-514): a bulk fetch of
the whole store, reversed in memory when descending, resolving with the
fetched records.  The branch never consults the operation kind, so a
delete call lands here too. -/
def allExec (t : Table) (descFlag : Bool) : Except String (Outcome × Table) :=
  let data := getAllH t .store .noQ
  .ok (.resolved (jarr (if descFlag then data.reverse else data)), t)

/-- The dispatcher body (source lines 299-516): mode selection by
presence of a truthy range, else a coerced where list, else the
enumerate-all default. -/
def exec (t : Table) (q : QueryObj) (ek : ExecKind) : Except String (Outcome × Table) :=
  let descFlag := descOf q
  let ws := whereList q.whereV
  if q.range.truthy then rangeExec t q.range q.unique q.only q.descending descFlag ws ek
  else
    match ws with
    | some terms =>
      match ek with
      | .get =>
        match keysGet t descFlag q.descending q.unique q.only terms with
        | .error e => .error e
        | .ok rs => .ok (.resolved (jarr rs), t)
      | .del =>
        match keysDel descFlag q.descending t terms with
        | .error e => .error e
        | .ok t2 => .ok (.hangs, t2)
    | none => allExec t descFlag

/-- The public get method (source lines 271-273). -/
def getOp (t : Table) (q : QueryObj) : Except String (Outcome × Table) :=
  exec t q .get

/-- The public delete method (source lines 256-258). -/
def deleteOp (t : Table) (q : QueryObj) : Except String (Outcome × Table) :=
  exec t q .del

/-! ## The tutorial data set (source doc comment, lines 18-66)

Four character records stored in the act table (unique key name,
index list with the planet path, birth and name), and four soundtrack
records stored in the ost table (compound unique key artist and title,
single duration index). -/

/-- The DIA character record. -/
def diaRec : JS :=
  jobj [("name", .str "DIA"), ("birth", .num 3014),
        ("ethnicity", jobj [("planet", .str "Earth"), ("country", .str "Korea")])]

/-- The UNE character record. -/
def uneRec : JS :=
  jobj [("name", .str "UNE"), ("birth", .num 3025),
        ("ethnicity", jobj [("planet", .str "Jupiter"), ("country", .str "Great Red Republic")])]

/-- The Baksa character record. -/
def baksaRec : JS :=
  jobj [("name", .str "Baksa"), ("birth", .num 2980),
        ("ethnicity", jobj [("planet", .str "Mars"), ("country", .str "Eberswalde")])]

/-- The Abu character record. -/
def abuRec : JS :=
  jobj [("name", .str "Abu"), ("birth", .num 3025),
        ("ethnicity", jobj [("planet", .str "Earth"), ("country", .str "Brazil")])]

/-- The character batch in tutorial insertion order. -/
def characters : List JS := [diaRec, uneRec, baksaRec, abuRec]

/-- The act table after provisioning and the tutorial put. -/
def actTable : Table :=
  (provisionTable "act" (.single "name")
      (some (.multi [.istr "ethnicity.planet", .istr "birth", .istr "name"]))).putAll
    characters

/-- Soundtrack record: DIA, Paradise. -/
def ostDiaParadise : JS :=
  jobj [("artist", .str "DIA"), ("title", .str "Paradise"), ("duration", .str "3:22")]

/-- Soundtrack record: DIA, Sleepless Night. -/
def ostDiaSleepless : JS :=
  jobj [("artist", .str "DIA"), ("title", .str "Sleepless Night"), ("duration", .str "4:02")]

/-- Soundtrack record: UNE, Aussie Boy. -/
def ostUneAussie : JS :=
  jobj [("artist", .str "UNE"), ("title", .str "Aussie Boy"), ("duration", .str "3:30")]

/-- Soundtrack record: Coldplay, Paradise. -/
def ostColdplayParadise : JS :=
  jobj [("artist", .str "Coldplay"), ("title", .str "Paradise"), ("duration", .str "4:37")]

/-- The soundtrack batch in tutorial insertion order. -/
def soundtracks : List JS :=
  [ostDiaParadise, ostDiaSleepless, ostUneAussie, ostColdplayParadise]

/-- The ost table after provisioning and the tutorial put. -/
def ostTable : Table :=
  (provisionTable "ost" (.compound ["artist", "title"]) (some (.sing "duration"))).putAll
    soundtracks

/-! ## The readiness gate (source lines 173-244)

The constructor opens every database named in the schema and installs,
for each, a success listener and an upgrade-completion listener that
both call the resolve function of one shared promise (source lines
190-194 and 232-235).  A promise is resolved by its first resolve
call, so the gate is resolved exactly when at least one declared
database has signalled completion.  Every public operation awaits this
gate before touching storage (source lines 300 and 519). -/

/-- An opening-lifecycle event of one database connection. -/
inductive DBEvent where
  | success (db : String)
  | upgradeComplete (db : String)
  | fail (db : String)
deriving DecidableEq

/-- The database an event marks as finished opening, if any. -/
def eventOpens : DBEvent → Option String
  | .success d => some d
  | .upgradeComplete d => some d
  | .fail _ => none

/-- Whether an event fires one of the resolve-calling listeners the
constructor registered (only databases named in the schema carry
listeners). -/
def resolvesGate (schema : List String) (e : DBEvent) : Bool :=
  match eventOpens e with
  | some d => decide (d ∈ schema)
  | none => false

/-- Resolution state of the shared readiness promise after a sequence
of events: resolved as soon as any listener has called resolve. -/
def readyResolved (schema : List String) (events : List DBEvent) : Bool :=
  events.any (resolvesGate schema)

/-- The databases that have finished opening after a sequence of
events. -/
def openedDBs (events : List DBEvent) : List String :=
  events.filterMap eventOpens

/-- Whether a public operation issued after the given events proceeds
past its await of the readiness gate and touches storage (source lines
300 and 519: every operation awaits the gate first). -/
def execPassesGate (schema : List String) (events : List DBEvent) : Bool :=
  readyResolved schema events

/-! ## The constructor (source lines 161-171) -/

/-- The synchronously constructed instance state: the stored version
and the database names the schema declares. -/
structure DexBeeState where
  version : Int
  dbNames : List String
deriving DecidableEq

/-- The database names of a schema object. -/
def schemaDBNames (schema : JS) : List String :=
  match schema with
  | .obj fs => fs.keys
  | _ => []

/-- The constructor body up to its first asynchronous step (source
lines 161-171): in a browser context a falsy schema raises the
NO_SCHEMA tag synchronously, before any state is built or any database
is opened; otherwise the instance state is assembled.  (Outside a
browser the constructor returns immediately, line 162-165.) -/
def constructDexBee (isBrowser : Bool) (schema : JS) (version : Int) :
    Except String DexBeeState :=
  if !isBrowser then .ok ⟨version, []⟩
  else if !schema.truthy then .error "NO_SCHEMA"
  else .ok ⟨version, schemaDBNames schema⟩

/-- Length of a JS array, 0 otherwise (used to state result shapes). -/
def jsLen : JS → Nat
  | .arr es => es.toList.length
  | _ => 0

deriving instance DecidableEq for Except

/-! ## Helper lemmas -/

/-- Round trip between Lean lists and JS array payloads. -/
theorem JSList.toList_ofList (l : List JS) : (JSList.ofList l).toList = l := by
  induction l with
  | nil => rfl
  | cons x xs ih => simp [JSList.ofList, JSList.toList, ih]

/-- A bulk fetch of the whole store enumerates exactly the stored
records. -/
theorem getAllH_store_noQ (t : Table) : getAllH t .store .noQ = t.records := by
  simp [getAllH, handleEntries, matchQ]

/-- KEYS-mode fan-out returns one inner list per term. -/
theorem keysGet_length (t : Table) (d : Bool) (dr u o : JS) :
    ∀ (terms rs : List JS), keysGet t d dr u o terms = .ok rs → rs.length = terms.length := by
  intro terms
  induction terms with
  | nil =>
    intro rs h
    simp [keysGet] at h
    simp [← h]
  | cons k ks ih =>
    intro rs h
    rw [keysGet] at h
    cases hk : keysGetTerm t d dr u o k with
    | error e => rw [hk] at h; cases h
    | ok r =>
      rw [hk] at h
      cases hrest : keysGet t d dr u o ks with
      | error e => rw [hrest] at h; cases h
      | ok rs0 =>
        rw [hrest] at h
        cases h
        simp [ih rs0 hrest]

/-- KEYS-mode fan-out computes the i-th inner list from the i-th term. -/
theorem keysGet_get (t : Table) (d : Bool) (dr u o : JS) :
    ∀ (terms rs : List JS), keysGet t d dr u o terms = .ok rs →
    ∀ (i : Nat) (h1 : i < terms.length) (h2 : i < rs.length),
      keysGetTerm t d dr u o (terms.get ⟨i, h1⟩) = .ok (rs.get ⟨i, h2⟩) := by
  intro terms
  induction terms with
  | nil =>
    intro rs h i h1 h2
    exact absurd h1 (by simp)
  | cons k ks ih =>
    intro rs h i h1 h2
    rw [keysGet] at h
    cases hk : keysGetTerm t d dr u o k with
    | error e => rw [hk] at h; cases h
    | ok r =>
      rw [hk] at h
      cases hrest : keysGet t d dr u o ks with
      | error e => rw [hrest] at h; cases h
      | ok rs0 =>
        rw [hrest] at h
        cases h
        match i with
        | 0 => simpa using hk
        | i + 1 =>
          simp only [List.get_cons_succ]
          exact ih rs0 hrest i (by simpa using h1) (by simpa using h2)

/-- The gate being resolved exhibits at least one opened declared
database. -/
theorem gateOpened (schema : List String) (events : List DBEvent)
    (h : execPassesGate schema events = true) :
    ∃ d, d ∈ schema ∧ d ∈ openedDBs events := by
  simp only [execPassesGate, readyResolved, List.any_eq_true] at h
  obtain ⟨e, he, hg⟩ := h
  unfold resolvesGate at hg
  cases heo : eventOpens e with
  | none => rw [heo] at hg; cases hg
  | some d =>
    rw [heo] at hg
    simp at hg
    exact ⟨d, hg, List.mem_filterMap.mpr ⟨e, he, heo⟩⟩

/-! ## Claim C1 -/

/-- C1: a delete with no query object is claimed to empty the table and
resolve with true.  The code disagrees: the dispatch for a query with
neither range nor where falls to the default branch, which runs the
bulk-fetch primitive regardless of the operation kind (source lines
502-514), so the call resolves with the full record list and the table
keeps all four records.  This contradicts the documented behavior of
the delete method (source line 252). -/
theorem c1_delete_without_query_fetches_instead_of_deleting :
    deleteOp actTable emptyQ =
      .ok (.resolved (jarr [abuRec, baksaRec, diaRec, uneRec]), actTable) ∧
    actTable.records = [abuRec, baksaRec, diaRec, uneRec] ∧
    (Outcome.resolved (jarr [abuRec, baksaRec, diaRec, uneRec]) ≠ .resolved (.bool true)) := by
  refine ⟨by decide, by decide, by decide⟩

/-! ## Claim C2 -/

/-- C2 counterexample: the claim says the count-limited scan includes
the record at the resolved where key.  On the four act records,
get with where Abu and range 2 returns the Baksa and DIA records: the
bound is built with the exclusive flag (source line 376), so the Abu
record is excluded even though it is present. -/
theorem c2_counterexample :
    getOp actTable ⟨.str "Abu", .num 2, .undefined, .undefined, .undefined⟩ =
      .ok (.resolved (jarr [baksaRec, diaRec]), actTable) ∧
    abuRec ∈ actTable.records ∧
    abuRec.field "name" = .str "Abu" ∧
    (jarr [baksaRec, diaRec] ≠ jarr [abuRec, baksaRec]) := by
  refine ⟨by decide, by decide, by decide, by decide⟩

/-! ## Claim C3 -/

/-- C3 counterexample: the claim says projecting a field absent from
every matched record returns the raw records.  In the code the
projected list is built by pushing the (undefined) field value of every
record (source lines 430-433), so its length equals the record count
and the fallback does not fire: the call returns a list of undefined
values, not the raw records. -/
theorem c3_counterexample :
    getOp actTable ⟨.str "DIA", .undefined, .undefined, .str "nonexistentField", .undefined⟩ =
      .ok (.resolved (jarr [jarr [.undefined]]), actTable) ∧
    (jarr [jarr [.undefined]] ≠ jarr [jarr [diaRec]]) := by
  refine ⟨by decide, by decide⟩

/-- C3 amended: with a truthy projection option and a non-empty matched
record set the per-term list is the projected list (the named field
value of each record, undefined where the field is missing); the
raw-record fallback fires exactly when the record set itself is empty.
Shown on the shaper and on a two-term call whose named field exists in
no record. -/
theorem c3_amended :
    (∀ (only : JS) (data : List JS), only.truthy = true → data ≠ [] →
        onlyShape only data = data.map (fun d => d.fieldJ only)) ∧
    (∀ (only : JS), onlyShape only [] = []) ∧
    getOp actTable ⟨jarr [.str "DIA", .str "Abu"], .undefined, .undefined, .str "nonexistentField", .undefined⟩ =
      .ok (.resolved (jarr [jarr [.undefined], jarr [.undefined]]), actTable) := by
  refine ⟨?_, ?_, by decide⟩
  · intro only data ho hd
    simp [onlyShape, ho, hd]
  · intro only
    cases ho : only.truthy <;> simp [onlyShape, ho]

/-- C3 amended, witness: the shaper projects a present field off a
singleton record set. -/
theorem c3_amended_witness :
    onlyShape (.str "name") [diaRec] = [.str "DIA"] := by
  refine (c3_amended.1 (.str "name") [diaRec] (by decide) (by decide)).trans (by decide)

/-! ## Claim C4 -/

/-- C4 counterexample: with two declared databases, a success event of
the first alone resolves the readiness gate (every per-database success
listener calls the one shared resolve, source lines 190-194), so an
operation passes the gate while the second database is still unopened.
The claim that the gate resolves only after every declared database has
opened is therefore false. -/
theorem c4_counterexample :
    execPassesGate ["stardust", "backup"] [.success "stardust"] = true ∧
    ("backup" ∈ ["stardust", "backup"]) ∧
    ¬ ("backup" ∈ openedDBs [.success "stardust"]) := by
  refine ⟨by decide, by decide, by decide⟩

/-- C4 amended: the readiness gate resolves once the first declared
database finishes opening, and every public operation awaits the gate,
so an operation that touches storage does so only after at least one
declared database has opened; when the schema declares a single
database this coincides with the claimed guarantee. -/
theorem c4_amended :
    (∀ (schema : List String) (events : List DBEvent),
        execPassesGate schema events = true →
        ∃ d, d ∈ schema ∧ d ∈ openedDBs events) ∧
    (∀ (d : String) (events : List DBEvent),
        execPassesGate [d] events = true →
        ∀ x ∈ [d], x ∈ openedDBs events) := by
  constructor
  · exact fun schema events h => gateOpened schema events h
  · intro d events h x hx
    obtain ⟨d0, hd0, ho⟩ := gateOpened [d] events h
    simp at hd0 hx
    rw [hx, ← hd0]
    exact ho

/-- C4 amended, witness: a single-database schema whose database has
opened lets operations through with that database open. -/
theorem c4_amended_witness :
    ∃ d, d ∈ ["stardust"] ∧ d ∈ openedDBs [DBEvent.success "stardust"] :=
  c4_amended.1 ["stardust"] [DBEvent.success "stardust"] (by decide)

/-! ## Claim C5 -/

/-- C5: when an ordered-list where term is shorter than the compound
key path of the resolved scan target, keyFill pads an upper bound with
one maximal sentinel per missing trailing component and the engine
scans the bounded range; on the ost table (compound unique key artist
and title) the one-component prefix matches both DIA records and the
full two-component key matches exactly one. -/
theorem c5_compound_prefix_padding :
    (∀ (dbKP : KeyPath) (descFlag : Bool) (elems : List JS),
        (∀ b ∈ elems, b.truthy = true) → elems.length < dbKP.len →
        keyFill dbKP descFlag (jarr elems) false =
          .ok (.padded (jarr elems) (elems ++ List.replicate (dbKP.len - elems.length) sentinel))) ∧
    getOp ostTable ⟨jarr [jarr [.str "DIA"]], .undefined, .undefined, .undefined, .undefined⟩ =
      .ok (.resolved (jarr [jarr [ostDiaParadise, ostDiaSleepless]]), ostTable) ∧
    getOp ostTable ⟨jarr [jarr [.str "DIA", .str "Paradise"]], .undefined, .undefined, .undefined, .undefined⟩ =
      .ok (.resolved (jarr [jarr [ostDiaParadise]]), ostTable) := by
  refine ⟨?_, by decide, by decide⟩
  intro dbKP descFlag elems hall hlen
  have hany2 : (elems.any fun b => !b.truthy) = false := by
    simp only [List.any_eq_false]
    intro x hx
    simp [hall x hx]
  unfold keyFill jarr
  simp only [JSList.toList_ofList, hany2, Bool.false_eq_true, if_false]
  rw [if_pos (show dbKP.len - elems.length > 0 by omega)]

/-- C5 witness: the ost key path padded against the one-component DIA
prefix yields the sentinel-extended upper bound. -/
theorem c5_compound_prefix_padding_witness :
    keyFill (.compound ["artist", "title"]) false (jarr [.str "DIA"]) false =
      .ok (.padded (jarr [.str "DIA"]) [.str "DIA", sentinel]) := by
  refine (c5_compound_prefix_padding.1 (.compound ["artist", "title"]) false [.str "DIA"]
    (by decide) (by decide)).trans (by decide)

/-! ## Claim C6 -/

/-- C6 counterexample: the claim quantifies over every query object
with a where option, but when a truthy range is also present the
dispatcher enters RANGE mode and returns one flat record list.  With a
one-term where and range 3 on the act table the result holds three
records at the outer level instead of one inner list per term. -/
theorem c6_counterexample :
    getOp actTable ⟨.str "Abu", .num 3, .undefined, .undefined, .undefined⟩ =
      .ok (.resolved (jarr [baksaRec, diaRec, uneRec]), actTable) ∧
    whereList (.str "Abu") = some [.str "Abu"] ∧
    jsLen (jarr [baksaRec, diaRec, uneRec]) = 3 ∧
    (3 : Nat) ≠ 1 := by
  refine ⟨by decide, by decide, by decide, by decide⟩

/-- C6 amended: with where present and no truthy range (so the call is
dispatched in KEYS mode), the result is an ordered list with exactly
one inner list per where term (a non-list where counting as one term),
and the i-th inner list is the lookup result of the i-th term, in
input order. -/
theorem c6_amended (t : Table) (q : QueryObj) (terms rs : List JS)
    (hw : whereList q.whereV = some terms)
    (hr : q.range.truthy = false)
    (hk : keysGet t (descOf q) q.descending q.unique q.only terms = .ok rs) :
    getOp t q = .ok (.resolved (jarr rs), t) ∧
    rs.length = terms.length ∧
    (∀ (i : Nat) (h1 : i < terms.length) (h2 : i < rs.length),
        keysGetTerm t (descOf q) q.descending q.unique q.only (terms.get ⟨i, h1⟩) =
          .ok (rs.get ⟨i, h2⟩)) := by
  refine ⟨?_, keysGet_length t _ _ _ _ terms rs hk, keysGet_get t _ _ _ _ terms rs hk⟩
  unfold getOp exec
  simp only [hr, Bool.false_eq_true, if_false, hw, hk]

/-- C6 witness: a two-term lookup on the act table yields two inner
lists in term order. -/
theorem c6_amended_witness :
    getOp actTable ⟨jarr [.str "DIA", .str "Abu"], .undefined, .undefined, .undefined, .undefined⟩ =
      .ok (.resolved (jarr [jarr [diaRec], jarr [abuRec]]), actTable) :=
  (c6_amended actTable ⟨jarr [.str "DIA", .str "Abu"], .undefined, .undefined, .undefined, .undefined⟩
    [.str "DIA", .str "Abu"] [jarr [diaRec], jarr [abuRec]]
    (by decide) (by decide) (by decide)).1

/-! ## Claim C7 -/

/-- C7 counterexample: the claim says RANGE mode draws its single term
from the first where element for both directions.  For a descending
scan the code indexes the last element (source line 452): with
where Abu,UNE and range -2 the scan runs from UNE (yielding the DIA
and Baksa records, the same as a where of UNE alone), not from Abu
(which would yield nothing). -/
theorem c7_counterexample :
    rangeScanTerm true (some [.str "Abu", .str "UNE"]) = .str "UNE" ∧
    (JS.str "UNE" ≠ .str "Abu") ∧
    getOp actTable ⟨jarr [.str "Abu", .str "UNE"], .num (-2), .undefined, .undefined, .undefined⟩ =
      .ok (.resolved (jarr [diaRec, baksaRec]), actTable) ∧
    getOp actTable ⟨jarr [.str "Abu"], .num (-2), .undefined, .undefined, .undefined⟩ =
      .ok (.resolved (jarr []), actTable) := by
  refine ⟨by decide, by decide, by decide, by decide⟩

/-- C7 amended: in RANGE mode the single scan term is the first where
element for ascending queries and the last where element for
descending queries (a non-array where having been coerced to a
one-element list beforehand).  Shown on the term selector and by
observable agreement with the corresponding single-term queries. -/
theorem c7_amended :
    rangeScanTerm false (some [.str "Baksa", .str "UNE"]) = .str "Baksa" ∧
    rangeScanTerm true (some [.str "Abu", .str "UNE"]) = .str "UNE" ∧
    getOp actTable ⟨jarr [.str "Baksa", .str "UNE"], .num 2, .undefined, .undefined, .undefined⟩ =
      .ok (.resolved (jarr [diaRec, uneRec]), actTable) ∧
    getOp actTable ⟨jarr [.str "Baksa"], .num 2, .undefined, .undefined, .undefined⟩ =
      .ok (.resolved (jarr [diaRec, uneRec]), actTable) ∧
    getOp actTable ⟨jarr [.str "UNE"], .num (-2), .undefined, .undefined, .undefined⟩ =
      .ok (.resolved (jarr [diaRec, baksaRec]), actTable) := by
  refine ⟨by decide, by decide, by decide, by decide, by decide⟩

/-! ## Claim C8 -/

/-- C8 counterexample: the claim says the only projection applies in
every dispatch mode.  The enumerate-all branch (source lines 502-514)
never consults the only option: with only name and neither where nor
range the call returns the four full records, not the four names. -/
theorem c8_counterexample :
    getOp actTable ⟨.null, .undefined, .undefined, .str "name", .undefined⟩ =
      .ok (.resolved (jarr [abuRec, baksaRec, diaRec, uneRec]), actTable) ∧
    (jarr [abuRec, baksaRec, diaRec, uneRec] ≠
      jarr [.str "Abu", .str "Baksa", .str "DIA", .str "UNE"]) := by
  refine ⟨by decide, by decide⟩

/-- C8 amended: the only projection is applied in KEYS and RANGE modes
but ignored in enumerate-all mode: with neither where nor range the
result is always the raw record list, whatever the only option says,
while the same option projects the named field in KEYS and RANGE
dispatches. -/
theorem c8_amended :
    (∀ (t : Table) (only : JS),
        getOp t ⟨.null, .undefined, .undefined, only, .undefined⟩ =
          .ok (.resolved (jarr t.records), t)) ∧
    getOp actTable ⟨.str "DIA", .undefined, .undefined, .str "name", .undefined⟩ =
      .ok (.resolved (jarr [jarr [.str "DIA"]]), actTable) ∧
    getOp actTable ⟨.str "Abu", .num 2, .undefined, .str "name", .undefined⟩ =
      .ok (.resolved (jarr [.str "Baksa", .str "DIA"]), actTable) := by
  refine ⟨?_, by decide, by decide⟩
  intro t only
  have h : getOp t ⟨.null, .undefined, .undefined, only, .undefined⟩ =
      .ok (.resolved (jarr (getAllH t .store .noQ)), t) := rfl
  rw [h, getAllH_store_noQ]

/-! ## Claim C9 -/

/-- C9 counterexample: the claim says construction fails with the
no-schema error if and only if the schema is empty or absent.  An
empty schema object is truthy, so the falsy check on source line 167
does not fire: construction succeeds on an empty object schema. -/
theorem c9_counterexample :
    constructDexBee true (jobj []) 1 = .ok ⟨1, []⟩ ∧
    constructDexBee true (jobj []) 1 ≠ .error "NO_SCHEMA" := by
  refine ⟨by decide, by decide⟩

/-- C9 amended: in a browser context construction raises the no-schema
tag synchronously exactly when the schema argument is falsy (absent,
null, or another falsy value); any truthy schema, including an empty
object, is accepted at construction time. -/
theorem c9_amended :
    (∀ (s : JS) (v : Int),
        constructDexBee true s v = .error "NO_SCHEMA" ↔ s.truthy = false) ∧
    (∀ (s : JS) (v : Int), s.truthy = true →
        constructDexBee true s v = .ok ⟨v, schemaDBNames s⟩) := by
  constructor
  · intro s v
    constructor
    · intro h
      cases ht : s.truthy with
      | false => rfl
      | true =>
        unfold constructDexBee at h
        simp [ht] at h
    · intro h
      unfold constructDexBee
      simp [h]
  · intro s v h
    unfold constructDexBee
    simp [h]

/-- C9 witness: a one-database schema object constructs successfully
with its database name recorded. -/
theorem c9_amended_witness :
    constructDexBee true (jobj [("stardust", jobj [])]) 1 = .ok ⟨1, ["stardust"]⟩ := by
  refine (c9_amended.2 (jobj [("stardust", jobj [])]) 1 (by decide)).trans (by decide)

/-! ## Claim C10 -/

/-- C10: a query object whose range option is falsy (0, null,
undefined, false or the empty string) is never dispatched in RANGE
mode: the call behaves exactly as the same query with the range option
absent, for both operations, so a where query with range 0 returns the
per-term KEYS result and a bare range 0 enumerates the whole table. -/
theorem c10_falsy_range_ignored (t : Table) (q : QueryObj) (ek : ExecKind)
    (h : q.range.truthy = false) :
    exec t q ek = exec t ⟨q.whereV, .undefined, q.unique, q.only, q.descending⟩ ek := by
  obtain ⟨w, r, u, o, d⟩ := q
  simp only at h
  have hdesc : descOf ⟨w, r, u, o, d⟩ = descOf ⟨w, .undefined, u, o, d⟩ := by
    cases d <;> cases r <;> simp_all [descOf, JS.truthy]
  simp only [exec, h, hdesc, Bool.false_eq_true, if_false]
  rfl

/-- C10 witness: a where query with range 0 on the act table equals
the same query with no range. -/
theorem c10_falsy_range_ignored_witness :
    exec actTable ⟨.str "DIA", .num 0, .undefined, .undefined, .undefined⟩ .get =
      exec actTable ⟨.str "DIA", .undefined, .undefined, .undefined, .undefined⟩ .get :=
  c10_falsy_range_ignored actTable ⟨.str "DIA", .num 0, .undefined, .undefined, .undefined⟩ .get (by decide)

/-! ## Claim C2, amended -/

/-- C2 amended: for a count-limited range query with a scalar where key
and a positive count on a single-key-path table, the scan starts at an
exclusive bound on the resolved where key: it returns the first count
records whose key is strictly greater than the key, in forward key
order, and the record at the key itself is excluded.  With a negative
count or the descending flag the scan instead visits records strictly
before the key, moving backward (shown on the act table). -/
theorem c2_amended :
    (∀ (t : Table) (p s : String) (n : Int),
        t.keyPath = .single p → s ≠ "" → 0 < n →
        getOp t ⟨.str s, .num n, .undefined, .undefined, .undefined⟩ =
          .ok (.resolved (jarr ((t.records.filter
            (fun r => keyLt (.str s) (evalPathStr r p))).take n.natAbs)), t)) ∧
    getOp actTable ⟨.str "UNE", .num (-2), .undefined, .undefined, .undefined⟩ =
      .ok (.resolved (jarr [diaRec, baksaRec]), actTable) ∧
    getOp actTable ⟨.str "Abu", .num 2, .undefined, .undefined, .bool true⟩ =
      .ok (.resolved (jarr []), actTable) := by
  refine ⟨?_, by decide, by decide⟩
  intro t p s n hkp hs hn
  have hntz : (n == 0) = false := by simp; omega
  have hnneg : (decide (n < 0)) = false := by simp; omega
  have hse : (s == "") = false := by simp [hs]
  obtain ⟨tn, tkp, tidx, trecs⟩ := t
  simp only [Table.keyPath] at hkp
  subst hkp
  simp only [getOp, exec, rangeExec, locateIndex, keyFill, descOf, whereList,
    rangeScanTerm, cursorH, getAllH, handleEntries, handleKeyPath, matchQ,
    KeyPath.eval, KeyPath.len, projOnly, JS.truthy, JS.isNumber, qOfJS,
    hntz, hnneg, hse, Bool.not_false, Bool.false_eq_true, if_false, if_true,
    List.head?_cons, Option.getD_some, Nat.sub_self, lt_self_iff_false,
    Bool.true_or, Bool.or_false, projOnly]
  have hproj : projOnly JS.undefined = fun v => v := by
    funext v
    simp [projOnly, JS.truthy]
  rw [hproj]
  simp

/-- C2 amended, witness: on the act table the two records strictly
after the Abu key are Baksa and DIA. -/
theorem c2_amended_witness :
    getOp actTable ⟨.str "Abu", .num 2, .undefined, .undefined, .undefined⟩ =
      .ok (.resolved (jarr [baksaRec, diaRec]), actTable) := by
  refine (c2_amended.1 actTable "name" "Abu" 2 (by decide) (by decide) (by decide)).trans
    (by decide)
